import Mathlib

set_option maxHeartbeats 1000000
set_option maxRecDepth 4000

namespace RustfmtModules

/-!
Shallow embedding of `src/formatting/modules.rs`, the module-graph resolver of a
source formatter.  File paths are modelled as lists of components (`PathBuf`),
spans as natural numbers, and the external collaborators (the parsing session
`ParseSess`, the `Parser`, the filesystem, and the `visitor` submodule's
`CfgIfVisitor`/`PathVisitor`, none of which are part of this file's source) as an
explicit environment `Env` of functions.  The resolver's recursion is expressed
as one fuel-indexed structurally recursive interpreter `run` over a `Call` type
whose constructors correspond one-to-one to the source's mutually recursive
methods; fuel exhaustion is reported as the distinguished outcome `RErr.fuel`
and a Rust panic (`Option::unwrap` on `None`) as `RErr.panicked`.
-/

abbrev Ident := String

abbrev Span := Nat

abbrev PathBuf := List String

inductive AttrStyle where
  | inner
  | outer
deriving DecidableEq

/-- An `ast::Attribute`: its placement style, whether it `has_name(sym::path)`,
and its `value_str()`. -/
structure Attribute where
  style : AttrStyle
  isPathAttr : Bool
  valueStr : Option String
deriving DecidableEq

/-- Copy-on-write container (`std::borrow::Cow`); the tag (borrowed vs owned) is
inspected by `visit_sub_mod_after_directory_update`, so it must be kept. -/
inductive Cow (α : Type) where
  | borrowed (val : α)
  | owned (val : α)
deriving DecidableEq

def Cow.val {α : Type} : Cow α → α
  | .borrowed v => v
  | .owned v => v

mutual
inductive Item : Type where
  | mk (ident : Ident) (attrs : List Attribute) (span : Span) (kind : ItemKind)

inductive ItemKind : Type where
  | modItem (kind : ModKind)
  | macCall (lastSegment : String)
  | otherItem

inductive ModKind : Type where
  | loaded (items : List Item) (inline : Bool)
  | unloaded
end

def Item.ident : Item → Ident
  | .mk i _ _ _ => i

def Item.attrs : Item → List Attribute
  | .mk _ a _ _ => a

def Item.span : Item → Span
  | .mk _ _ s _ => s

def Item.kind : Item → ItemKind
  | .mk _ _ _ k => k

/-- `Module<'a>` of the source.  The source's `ast_item` is an
`Option<Cow<'a, ast::Item>>`, but its `Cow` tag is never inspected anywhere in
the file, so it is dropped here. -/
structure Module where
  astModKind : Option (Cow ModKind)
  items : Cow (List Item)
  attrs : Cow (List Attribute)
  astItem : Option Item
  innerAttr : List Attribute
  span : Span

def Module.ident (m : Module) : Ident :=
  match m.astItem with
  | none => ""
  | some item => item.ident

def Module.name (m : Module) : String :=
  match m.astItem with
  | none => ""
  | some item => item.ident

def Module.outerAttrs (m : Module) : List Attribute :=
  match m.astItem with
  | none => []
  | some item => item.attrs

/-- `Module::new`: `inner_attr` is derived by filtering the module attributes by
inner placement. -/
def Module.new (modSpan : Span) (astModKind : Option (Cow ModKind)) (astItem : Option Item)
    (modItems : Cow (List Item)) (modAttrs : Cow (List Attribute)) : Module :=
  { astModKind := astModKind
    astItem := astItem
    items := modItems
    attrs := modAttrs
    innerAttr := modAttrs.val.filter (fun attr => attr.style == AttrStyle.inner)
    span := modSpan }

def Module.outsideAstModSpan (m : Module) : Option Span :=
  m.astItem.map (fun item => item.span)

instance : Inhabited Module :=
  ⟨Module.new 0 none none (.owned []) (.owned [])⟩

inductive DirectoryOwnership where
  | owned (relative : Option Ident)
  | unownedViaBlock
deriving DecidableEq

structure Directory where
  path : PathBuf
  ownership : DirectoryOwnership
deriving DecidableEq

inductive FileName where
  | real (path : PathBuf)
  | virtualFile (id : Nat)
deriving DecidableEq

/-- `FileModMap` is a `BTreeMap<FileName, Module>`; it is modelled as an
association list (the source's path-ordering of iteration is not needed by any
claim, while the insertion semantics `entry().or_insert()` vs `insert()` are). -/
abbrev FileModMap := List (FileName × Module)

def findEntry (fm : FileModMap) (key : FileName) : Option Module :=
  (fm.find? (fun kv => kv.1 == key)).map (fun kv => kv.2)

/-- `BTreeMap::entry(k).or_insert(v)`: keeps an existing entry untouched. -/
def or_insert (fm : FileModMap) (key : FileName) (v : Module) : FileModMap :=
  if (findEntry fm key).isSome then fm else fm ++ [(key, v)]

/-- `BTreeMap::insert(k, v)`: overwrites an existing entry's value. -/
def insertReplace (fm : FileModMap) (key : FileName) (v : Module) : FileModMap :=
  if (findEntry fm key).isSome then
    fm.map (fun kv => if kv.1 == key then (key, v) else kv)
  else fm ++ [(key, v)]

inductive ParserError where
  | parseError
  | otherError
deriving DecidableEq

inductive ModError where
  | parserErr
  | otherErr
deriving DecidableEq

structure ModulePathSuccess where
  filePath : PathBuf
  dirOwnership : DirectoryOwnership
deriving DecidableEq

inductive ModuleResolutionErrorKind where
  | parseError (file : PathBuf)
  | notFound (file : PathBuf)
deriving DecidableEq

structure ModuleResolutionError where
  module : String
  kind : ModuleResolutionErrorKind
deriving DecidableEq

/-- Outcome classification for the embedded resolver.  `res` wraps the source's
`ModuleResolutionError`; `panicked` marks a Rust panic (the `unwrap` of an
absent `ast_item` in `peek_sub_mod`); `fuel` marks exhaustion of the embedding's
fuel (an artifact with no source counterpart). -/
inductive RErr where
  | res (err : ModuleResolutionError)
  | panicked
  | fuel
deriving DecidableEq

inductive SubModKind where
  | external (path : PathBuf) (ownership : DirectoryOwnership) (m : Module)
  | multiExternal (mods : List (PathBuf × DirectoryOwnership × Module))
  | internal (item : Item)

/-- External collaborators of `modules.rs`, plus the resolver's `recursive`
flag.  `containsSkip`, `pathVisitorPaths` and `cfgIfMods` stand for
`utils::contains_skip`, `visitor::PathVisitor` and `visitor::CfgIfVisitor`,
which live outside this file; they are kept abstract so theorems quantify over
all of their behaviours. -/
structure Env where
  recursive : Bool
  containsSkip : List Attribute → Bool
  isFileParsed : PathBuf → Bool
  fileExists : PathBuf → Bool
  parseFileAsModule : PathBuf → Option Span → Except ParserError (List Attribute × List Item × Span)
  defaultSubmodPath : Ident → Option Ident → PathBuf → Except ModError ModulePathSuccess
  spanToFilename : Span → FileName
  pathVisitorPaths : List Attribute → List String
  cfgIfMods : Item → List Item

/-- The mutable state of `ModResolver`: its directory context and file map. -/
structure St where
  directory : Directory
  fileMap : FileModMap

def path_value (attr : Attribute) : Option String :=
  if attr.isPathAttr then attr.valueStr else none

/-- `find_path_value`: first `Some` of `path_value` over the attribute list
(`attrs.iter().flat_map(path_value).next()`). -/
def find_path_value (attrs : List Attribute) : Option String :=
  attrs.findSome? path_value

/-- Modelled from the spec: `Parser::submod_path_from_attr` lives in
`syntux/parser.rs`, which is not under `src/`; per section 6 of the spec it
returns `<current dir>/<override>` for an explicit path-override attribute,
if one is present. -/
def submod_path_from_attr (attrs : List Attribute) (dirPath : PathBuf) : Option PathBuf :=
  (find_path_value attrs).map (fun p => dirPath ++ [p])

/-- Modelled from the spec: `items::is_mod_decl` is not under `src/`; per
section 4.4 of the spec, a module declaration is reference-only iff it has no
inline body. -/
def is_mod_decl (item : Item) : Bool :=
  match item.kind with
  | .modItem (.loaded _ inline) => !inline
  | .modItem .unloaded => true
  | _ => false

def isCfgIf (item : Item) : Bool :=
  match item.kind with
  | .macCall lastSegment => lastSegment == "cfg_if"
  | _ => false

/-- The `relative` component extracted from the current ownership at the start
of `find_external_module`. -/
def relativeOf : DirectoryOwnership → Option Ident
  | .owned relative => relative
  | .unownedViaBlock => none

/-- `push_inline_mod_directory`: the two-step mutation (consume the pending
relative offset via `relative.take()`, then push the module name) is rendered
as two successive record updates. -/
def push_inline_mod_directory (d : Directory) (id : Ident) (attrs : List Attribute) : Directory :=
  match find_path_value attrs with
  | some path => { path := d.path ++ [path], ownership := .owned none }
  | none =>
    let d' : Directory :=
      match d.ownership with
      | .owned (some ident) => { path := d.path ++ [ident], ownership := .owned none }
      | _ => d
    { d' with path := d'.path ++ [id] }

/-- The loop body of `find_mods_outside_of_ast` over the collected literal
paths: non-existent candidates and candidates whose parse fails are skipped
silently (`continue`). -/
def findModsOutsideOfAstGo (env : Env) (directory : Directory) (subMod : Module) :
    List String → List (PathBuf × DirectoryOwnership × Module)
  | [] => []
  | p :: rest =>
    let actualPath := directory.path ++ [p]
    if !env.fileExists actualPath then
      findModsOutsideOfAstGo env directory subMod rest
    else if env.isFileParsed actualPath then
      (actualPath, .owned none, subMod) :: findModsOutsideOfAstGo env directory subMod rest
    else
      match env.parseFileAsModule actualPath subMod.outsideAstModSpan with
      | .error _ => findModsOutsideOfAstGo env directory subMod rest
      | .ok (attrs, items, span) =>
        (actualPath, .owned none,
          Module.new span (some (.owned .unloaded)) subMod.astItem (.owned items) (.owned attrs)) ::
          findModsOutsideOfAstGo env directory subMod rest

def find_mods_outside_of_ast (env : Env) (directory : Directory) (subMod : Module) :
    List (PathBuf × DirectoryOwnership × Module) :=
  findModsOutsideOfAstGo env directory subMod (env.pathVisitorPaths subMod.outerAttrs)

/-- `find_external_module`, strategy for resolving a `mod foo;` declaration. -/
def find_external_module (env : Env) (directory : Directory) (subMod : Module) :
    Except RErr (Option SubModKind) :=
  let relative := relativeOf directory.ownership
  match submod_path_from_attr subMod.outerAttrs directory.path with
  | some path =>
    if env.isFileParsed path then .ok none
    else
      match env.parseFileAsModule path subMod.outsideAstModSpan with
      | .ok (attrs, items, span) =>
        .ok (some (.external path (.owned none)
          (Module.new span (some (.owned .unloaded)) subMod.astItem (.owned items) (.owned attrs))))
      | .error .parseError => .error (.res { module := subMod.name, kind := .parseError path })
      | .error .otherError => .error (.res { module := subMod.name, kind := .notFound path })
  | none =>
    let modsOutsideAst := find_mods_outside_of_ast env directory subMod
    match env.defaultSubmodPath subMod.ident relative directory.path with
    | .ok mps =>
      let filePath := mps.filePath
      let dirOwnership := mps.dirOwnership
      let outsideModsEmpty := modsOutsideAst.isEmpty
      let shouldInsert := !(modsOutsideAst.any (fun x => x.1 == filePath))
      if env.isFileParsed filePath then
        if outsideModsEmpty then .ok none
        else
          .ok (some (.multiExternal (modsOutsideAst ++
            (if shouldInsert then [(filePath, dirOwnership, subMod)] else []))))
      else
        match env.parseFileAsModule filePath subMod.outsideAstModSpan with
        | .ok (attrs, items, span) =>
          if outsideModsEmpty then
            .ok (some (.external filePath dirOwnership
              (Module.new span (some (.owned .unloaded)) subMod.astItem
                (.owned items) (.owned attrs))))
          else
            .ok (some (.multiExternal (modsOutsideAst ++
              [(filePath, dirOwnership,
                Module.new span (some (.owned .unloaded)) subMod.astItem
                  (.owned items) (.owned attrs))] ++
              (if shouldInsert then [(filePath, dirOwnership, subMod)] else []))))
        | .error .parseError =>
          .error (.res { module := subMod.name, kind := .parseError filePath })
        | .error .otherError =>
          if outsideModsEmpty then
            .error (.res { module := subMod.name, kind := .notFound filePath })
          else
            .ok (some (.multiExternal (modsOutsideAst ++
              (if shouldInsert then [(filePath, dirOwnership, subMod)] else []))))
    | .error _ =>
      if modsOutsideAst.isEmpty then
        .error (.res { module := subMod.name, kind := .notFound directory.path })
      else .ok (some (.multiExternal modsOutsideAst))

/-- `peek_sub_mod`: skip check, then reference-vs-inline classification.  The
source's `sub_mod.ast_item.clone().unwrap()` in the inline branch becomes
`RErr.panicked` when the declaring item is absent. -/
def peek_sub_mod (env : Env) (directory : Directory) (subMod : Module) :
    Except RErr (Option SubModKind) :=
  if env.containsSkip subMod.outerAttrs then .ok none
  else if (subMod.astItem.map is_mod_decl).getD false then
    find_external_module env directory subMod
  else
    match subMod.astItem with
    | some item => .ok (some (.internal item))
    | none => .error .panicked

/-- `insert_sub_mod`: all insertions go through `entry().or_insert()`. -/
def insert_sub_mod (kind : SubModKind) (fm : FileModMap) : FileModMap :=
  match kind with
  | .external modPath _ m => or_insert fm (.real modPath) m
  | .multiExternal mods => mods.foldl (fun acc x => or_insert acc (.real x.1) x.2.2) fm
  | .internal _ => fm

/-- The mutually recursive visiting methods of `ModResolver`, reified as call
shapes for the fuel-indexed interpreter `run`. -/
inductive Call where
  | fromAst (items : List Item)
  | outsideAst (items : List Item)
  | cfgIf (item : Item)
  | cfgIfMods (items : List Item)
  | subMod (m : Module)
  | subModInner (m : Module) (kind : SubModKind)
  | afterDirUpdate (m : Module) (dir : Option Directory)

/-- Strict `?`-style propagation of an error outcome. -/
def andThenSt (r : St × Option RErr) (k : St → St × Option RErr) : St × Option RErr :=
  match r with
  | (st, none) => k st
  | (st, some e) => (st, some e)

/-- The `if result.is_err() && self.recursive { return result; }` pattern of
`visit_mod_from_ast`: a `ModuleResolutionError` is propagated only in recursive
mode and swallowed otherwise (the loop continues from the errored state).
A panic or fuel exhaustion is never a Rust `Result`, so it always aborts. -/
def handleVisitResult (recursive : Bool) (r : St × Option RErr) (k : St → St × Option RErr) :
    St × Option RErr :=
  match r with
  | (st, none) => k st
  | (st, some (.res e)) => if recursive then (st, some (.res e)) else k st
  | (st, some .panicked) => (st, some .panicked)
  | (st, some .fuel) => (st, some .fuel)

/-- The resolver traversal.  Each `Call` branch is the body of the source
method of the same name: `fromAst` is `visit_mod_from_ast`, `outsideAst` is
`visit_mod_outside_ast`, `cfgIf`/`cfgIfMods` are `visit_cfg_if` and its loop,
`subMod` is `visit_sub_mod`, `subModInner` is `visit_sub_mod_inner` (with its
`MultiExternal` loop rendered by recursing on the remaining list), and
`afterDirUpdate` is `visit_sub_mod_after_directory_update`.  Every recursive
call consumes one unit of fuel. -/
def run (env : Env) : Nat → Call → St → St × Option RErr
  | 0, _, st => (st, some .fuel)
  | f + 1, c, st =>
    match c with
    | .fromAst [] => (st, none)
    | .fromAst (item :: rest) =>
      handleVisitResult env.recursive
        (if isCfgIf item then run env f (.cfgIf item) st else (st, none))
        (fun st1 =>
          match item.kind with
          | .modItem k =>
            handleVisitResult env.recursive
              (run env f (.subMod (Module.new item.span (some (.borrowed k)) (some item)
                (.owned []) (.borrowed item.attrs))) st1)
              (fun st2 => run env f (.fromAst rest) st2)
          | _ => run env f (.fromAst rest) st1)
    | .outsideAst [] => (st, none)
    | .outsideAst (item :: rest) =>
      if isCfgIf item then
        andThenSt (run env f (.cfgIf item) st) (fun st1 => run env f (.outsideAst rest) st1)
      else
        match item.kind with
        | .modItem k =>
          andThenSt
            (run env f (.subMod (Module.new item.span (some (.owned k)) (some item)
              (.owned []) (.owned []))) st)
            (fun st1 => run env f (.outsideAst rest) st1)
        | _ => run env f (.outsideAst rest) st
    | .cfgIf item => run env f (.cfgIfMods (env.cfgIfMods item)) st
    | .cfgIfMods [] => (st, none)
    | .cfgIfMods (item :: rest) =>
      match item.kind with
      | .modItem k =>
        andThenSt
          (run env f (.subMod (Module.new item.span (some (.owned k)) (some item)
            (.owned []) (.owned []))) st)
          (fun st1 => run env f (.cfgIfMods rest) st1)
      | _ => run env f (.cfgIfMods rest) st
    | .subMod m =>
      match peek_sub_mod env st.directory m with
      | .error e => (st, some e)
      | .ok none => (st, none)
      | .ok (some kind) =>
        let st1 : St := { st with fileMap := insert_sub_mod kind st.fileMap }
        if env.recursive then
          match run env f (.subModInner m kind) st1 with
          | (st2, none) => ({ st2 with directory := st.directory }, none)
          | (st2, some e) => (st2, some e)
        else ({ st1 with directory := st.directory }, none)
    | .subModInner m kind =>
      match kind with
      | .external modPath ownership newMod =>
        run env f (.afterDirUpdate newMod
          (some { path := modPath.dropLast, ownership := ownership })) st
      | .internal item =>
        run env f (.afterDirUpdate m none)
          { st with directory := push_inline_mod_directory st.directory item.ident item.attrs }
      | .multiExternal [] => (st, none)
      | .multiExternal ((modPath, ownership, newMod) :: rest) =>
        andThenSt
          (run env f (.afterDirUpdate newMod
            (some { path := modPath.dropLast, ownership := ownership })) st)
          (fun st1 => run env f (.subModInner m (.multiExternal rest)) st1)
    | .afterDirUpdate m dir =>
      let st1 : St :=
        match dir with
        | some d => { st with directory := d }
        | none => st
      match m.astModKind, m.items with
      | some (.borrowed (.loaded innerItems false)), _ => run env f (.fromAst innerItems) st1
      | some (.owned _), .owned innerItems => run env f (.outsideAst innerItems) st1
      | _, _ => (st1, none)

def visit_mod_from_ast (env : Env) (fuel : Nat) (items : List Item) (st : St) :
    St × Option RErr :=
  run env fuel (.fromAst items) st

def visit_mod_outside_ast (env : Env) (fuel : Nat) (items : List Item) (st : St) :
    St × Option RErr :=
  run env fuel (.outsideAst items) st

def visit_cfg_if (env : Env) (fuel : Nat) (item : Item) (st : St) : St × Option RErr :=
  run env fuel (.cfgIf item) st

def visit_sub_mod (env : Env) (fuel : Nat) (subMod : Module) (st : St) : St × Option RErr :=
  run env fuel (.subMod subMod) st

structure Crate where
  attrs : List Attribute
  items : List Item
  span : Span

/-- `ModResolver::visit_crate`: set the directory from the root file, visit the
top-level items, then insert the synthetic root module (with an overwriting
`BTreeMap::insert`) keyed by the root file identity. -/
def visit_crate (env : Env) (fuel : Nat) (krate : Crate)
    (directoryOwnership : DirectoryOwnership) : Except RErr FileModMap :=
  let rootFilename := env.spanToFilename krate.span
  let rootDirPath : PathBuf :=
    match rootFilename with
    | .real p => p.dropLast
    | .virtualFile _ => []
  let st0 : St := { directory := { path := rootDirPath, ownership := directoryOwnership },
                    fileMap := [] }
  match run env fuel (.fromAst krate.items) st0 with
  | (_, some e) => .error e
  | (st, none) =>
    .ok (insertReplace st.fileMap rootFilename
      (Module.new krate.span none none (.borrowed krate.items) (.borrowed krate.attrs)))

/-! Helper lemmas about the attribute path scanner. -/

theorem find_path_value_none_of_all_none (attrs : List Attribute)
    (h : ∀ b ∈ attrs, path_value b = none) : find_path_value attrs = none := by
  induction attrs with
  | nil => rfl
  | cons x xs ih =>
    have hx : path_value x = none := h x (List.mem_cons_self x xs)
    have hxs : find_path_value xs = none := ih (fun b hb => h b (List.mem_cons_of_mem x hb))
    simpa [find_path_value, List.findSome?, hx] using hxs

theorem find_path_value_append (pre : List Attribute) (a : Attribute) (post : List Attribute)
    (hpre : ∀ b ∈ pre, path_value b = none) (ha : (path_value a).isSome = true) :
    find_path_value (pre ++ a :: post) = path_value a := by
  induction pre with
  | nil =>
    obtain ⟨v, hv⟩ := Option.isSome_iff_exists.mp ha
    simp [find_path_value, List.findSome?, hv]
  | cons x xs ih =>
    have hx : path_value x = none := hpre x (List.mem_cons_self x xs)
    have hxs := ih (fun b hb => hpre b (List.mem_cons_of_mem x hb))
    simpa [find_path_value, List.findSome?, hx] using hxs

/-- C9: `find_path_value` returns the value of the first path-override attribute
(an attribute for which `path_value` produces a value) in list order; every
later path-override attribute is ignored, and the result is `none` when no
path-override attribute is present. -/
theorem find_path_value_first_wins (attrs : List Attribute) :
    ((∀ b ∈ attrs, path_value b = none) → find_path_value attrs = none) ∧
    (∀ (pre : List Attribute) (a : Attribute) (post : List Attribute),
      attrs = pre ++ a :: post → (∀ b ∈ pre, path_value b = none) →
      (path_value a).isSome = true → find_path_value attrs = path_value a) :=
  ⟨fun h => find_path_value_none_of_all_none attrs h,
   fun pre a post heq hpre ha => by subst heq; exact find_path_value_append pre a post hpre ha⟩

def attrP1 : Attribute := { style := .outer, isPathAttr := true, valueStr := some "x.rs" }

def attrP2 : Attribute := { style := .outer, isPathAttr := true, valueStr := some "y.rs" }

def attrN : Attribute := { style := .outer, isPathAttr := false, valueStr := none }

/-- Witness for C9: with two path-override attributes present, the value of the
first one is returned. -/
theorem c9_witness : find_path_value [attrN, attrP1, attrP2] = some "x.rs" :=
  (find_path_value_first_wins [attrN, attrP1, attrP2]).2 [attrN] attrP1 [attrP2] rfl
    (by decide) (by decide)

/-- C7: `push_inline_mod_directory` sets the path to `<current>/<override>` with
ownership `Owned {relative := none}` when a path-override attribute is present;
otherwise with ownership `Owned {relative := some r}` it pushes `r` and then the
module name, leaving ownership `Owned {relative := none}`; in all other cases it
pushes only the module name and keeps the ownership. -/
theorem push_inline_mod_directory_contract (d : Directory) (id : Ident) (attrs : List Attribute) :
    push_inline_mod_directory d id attrs =
      match find_path_value attrs with
      | some p => { path := d.path ++ [p], ownership := .owned none }
      | none =>
        match d.ownership with
        | .owned (some r) => { path := d.path ++ [r, id], ownership := .owned none }
        | _ => { path := d.path ++ [id], ownership := d.ownership } := by
  unfold push_inline_mod_directory
  cases hp : find_path_value attrs with
  | some p => rfl
  | none =>
    cases ho : d.ownership with
    | owned rel =>
      cases rel with
      | some r => simp [ho]
      | none => simp [ho]
    | unownedViaBlock => simp [ho]

/-- C6: with an explicit path override, `find_external_module` resolves from
exactly the path `<current dir>/<override>` without consulting conditional-path
candidates or the default convention lookup: already parsed yields `None`, a
successful parse yields `External` with ownership `Owned {relative := none}`, a
parser syntax failure yields `ParseError` and any other failure `NotFound`,
each naming the override path. -/
theorem find_external_module_explicit_override (env : Env) (directory : Directory)
    (subMod : Module) (ov : String)
    (h : find_path_value subMod.outerAttrs = some ov) :
    find_external_module env directory subMod =
      (if env.isFileParsed (directory.path ++ [ov]) then .ok none
       else
        match env.parseFileAsModule (directory.path ++ [ov]) subMod.outsideAstModSpan with
        | .ok (attrs, items, span) =>
          .ok (some (.external (directory.path ++ [ov]) (.owned none)
            (Module.new span (some (.owned .unloaded)) subMod.astItem
              (.owned items) (.owned attrs))))
        | .error .parseError =>
          .error (.res { module := subMod.name, kind := .parseError (directory.path ++ [ov]) })
        | .error .otherError =>
          .error (.res { module := subMod.name, kind := .notFound (directory.path ++ [ov]) })) := by
  simp [find_external_module, submod_path_from_attr, h]

def envW6 : Env :=
  { recursive := false
    containsSkip := fun _ => false
    isFileParsed := fun _ => false
    fileExists := fun _ => true
    parseFileAsModule := fun pth _ =>
      if pth == ["over.rs"] then .ok ([], [], 9) else .error .otherError
    defaultSubmodPath := fun _ _ _ => .ok { filePath := ["m6.rs"], dirOwnership := .owned none }
    spanToFilename := fun _ => .real ["lib.rs"]
    pathVisitorPaths := fun _ => []
    cfgIfMods := fun _ => [] }

def modW6 : Module :=
  Module.new 6 (some (.owned .unloaded))
    (some (Item.mk "m6" [{ style := .outer, isPathAttr := true, valueStr := some "over.rs" }] 6
      (.modItem .unloaded)))
    (.owned []) (.owned [])

/-- Witness for C6: an override `"over.rs"` on a module whose conventional
default `"m6.rs"` would also resolve is parsed from exactly `"over.rs"`. -/
theorem c6_witness :
    find_external_module envW6 { path := [], ownership := .owned none } modW6 =
      .ok (some (.external ["over.rs"] (.owned none)
        (Module.new 9 (some (.owned .unloaded)) modW6.astItem (.owned []) (.owned [])))) :=
  find_external_module_explicit_override envW6 { path := [], ownership := .owned none } modW6
    "over.rs" rfl

/-- C5: when the default convention file is not already parsed and the parser
reports a syntax error for it, `find_external_module` returns `ParseError` for
the default path, whatever the conditional-path candidates collected by
`find_mods_outside_of_ast` were (the environment is arbitrary here, so the
statement covers a non-empty candidate list). -/
theorem find_external_module_default_parse_error_is_fatal (env : Env) (directory : Directory)
    (subMod : Module) (filePath : PathBuf) (dirOwnership : DirectoryOwnership)
    (hattr : find_path_value subMod.outerAttrs = none)
    (hdef : env.defaultSubmodPath subMod.ident (relativeOf directory.ownership) directory.path
      = .ok { filePath := filePath, dirOwnership := dirOwnership })
    (hparsed : env.isFileParsed filePath = false)
    (hparse : env.parseFileAsModule filePath subMod.outsideAstModSpan = .error .parseError) :
    find_external_module env directory subMod =
      .error (.res { module := subMod.name, kind := .parseError filePath }) := by
  simp [find_external_module, submod_path_from_attr, hattr, hdef, hparsed, hparse]

def envW5 : Env :=
  { recursive := false
    containsSkip := fun _ => false
    isFileParsed := fun _ => false
    fileExists := fun pth => pth == ["alt.rs"]
    parseFileAsModule := fun pth _ =>
      if pth == ["alt.rs"] then .ok ([], [], 3) else .error .parseError
    defaultSubmodPath := fun _ _ _ => .ok { filePath := ["m.rs"], dirOwnership := .owned none }
    spanToFilename := fun _ => .real ["lib.rs"]
    pathVisitorPaths := fun _ => ["alt.rs"]
    cfgIfMods := fun _ => [] }

def modW5 : Module :=
  Module.new 3 (some (.owned .unloaded)) (some (Item.mk "m" [] 3 (.modItem .unloaded)))
    (.owned []) (.owned [])

/-- Witness for C5: even though the candidate `"alt.rs"` exists and parses, the
malformed default `"m.rs"` is a fatal `ParseError`. -/
theorem c5_witness :
    find_external_module envW5 { path := [], ownership := .owned none } modW5 =
      .error (.res { module := "m", kind := .parseError ["m.rs"] }) :=
  find_external_module_default_parse_error_is_fatal envW5
    { path := [], ownership := .owned none } modW5 ["m.rs"] (.owned none) rfl rfl rfl rfl

/-- C1 (amended): a reference module whose only conditional-path candidate
exists on disk but fails to parse is silently dropped during candidate
collection (`Err(..) => continue` in `find_mods_outside_of_ast`); when the
default convention lookup also fails, `find_external_module` therefore reports
`NotFound` naming the current directory, not `ParseError` for the malformed
candidate. -/
theorem find_external_module_malformed_candidate_missing_default (env : Env)
    (directory : Directory) (subMod : Module) (p : String) (me : ModError)
    (hattr : find_path_value subMod.outerAttrs = none)
    (hpaths : env.pathVisitorPaths subMod.outerAttrs = [p])
    (hex : env.fileExists (directory.path ++ [p]) = true)
    (hparsed : env.isFileParsed (directory.path ++ [p]) = false)
    (hparse : env.parseFileAsModule (directory.path ++ [p]) subMod.outsideAstModSpan
      = .error .parseError)
    (hdef : env.defaultSubmodPath subMod.ident (relativeOf directory.ownership) directory.path
      = .error me) :
    find_external_module env directory subMod =
      .error (.res { module := subMod.name, kind := .notFound directory.path }) := by
  have hmods : find_mods_outside_of_ast env directory subMod = [] := by
    simp [find_mods_outside_of_ast, hpaths, findModsOutsideOfAstGo, hex, hparsed, hparse]
  simp [find_external_module, submod_path_from_attr, hattr, hmods, hdef]

def envC1 : Env :=
  { recursive := false
    containsSkip := fun _ => false
    isFileParsed := fun _ => false
    fileExists := fun pth => pth == ["foo_x.rs"]
    parseFileAsModule := fun _ _ => .error .parseError
    defaultSubmodPath := fun _ _ _ => .error .otherErr
    spanToFilename := fun _ => .real ["lib.rs"]
    pathVisitorPaths := fun _ => ["foo_x.rs"]
    cfgIfMods := fun _ => [] }

def dirC1 : Directory := { path := [], ownership := .owned none }

def modC1 : Module :=
  Module.new 1 (some (.owned .unloaded)) (some (Item.mk "foo" [] 1 (.modItem .unloaded)))
    (.owned []) (.owned [])

/-- Counterexample to C1 as stated: module `foo` has the single conditional
candidate `"foo_x.rs"`, which exists but fails to parse with a syntax error,
and no default file exists; the result is `NotFound` for the current directory
and is not the `ParseError` naming the malformed candidate that the claim
requires. -/
theorem c1_counterexample :
    find_external_module envC1 dirC1 modC1 =
      .error (.res { module := "foo", kind := .notFound [] }) ∧
    find_external_module envC1 dirC1 modC1 ≠
      .error (.res { module := "foo", kind := .parseError ["foo_x.rs"] }) := by
  have h : find_external_module envC1 dirC1 modC1 =
      .error (.res { module := "foo", kind := .notFound [] }) := rfl
  refine ⟨h, ?_⟩
  rw [h]
  intro hc
  simp at hc

/-- Witness for the amended C1. -/
theorem c1_witness :
    find_external_module envC1 dirC1 modC1 =
      .error (.res { module := "foo", kind := .notFound [] }) :=
  find_external_module_malformed_candidate_missing_default envC1 dirC1 modC1 "foo_x.rs"
    .otherErr rfl rfl rfl rfl rfl rfl

/-- C2 (amended): with conditional-path candidates present and a default
convention file that is already known, `find_external_module` appends at most
one declaration-site entry for the default path (none if the default path
already occurs among the candidates); but when the default file is freshly and
successfully parsed, the newly parsed module is always appended and the
declaration-site module is additionally appended whenever the default path is
not among the candidates, so the default path can then occur twice in the
returned `MultiExternal` list. -/
theorem find_external_module_default_append (env : Env) (directory : Directory)
    (subMod : Module) (filePath : PathBuf) (dirOwnership : DirectoryOwnership)
    (hattr : find_path_value subMod.outerAttrs = none)
    (hdef : env.defaultSubmodPath subMod.ident (relativeOf directory.ownership) directory.path
      = .ok { filePath := filePath, dirOwnership := dirOwnership })
    (hne : find_mods_outside_of_ast env directory subMod ≠ []) :
    (env.isFileParsed filePath = true →
      find_external_module env directory subMod =
        .ok (some (.multiExternal (find_mods_outside_of_ast env directory subMod ++
          (if !((find_mods_outside_of_ast env directory subMod).any (fun x => x.1 == filePath))
           then [(filePath, dirOwnership, subMod)] else []))))) ∧
    (∀ (attrs : List Attribute) (items : List Item) (span : Span),
      env.isFileParsed filePath = false →
      env.parseFileAsModule filePath subMod.outsideAstModSpan = .ok (attrs, items, span) →
      find_external_module env directory subMod =
        .ok (some (.multiExternal (find_mods_outside_of_ast env directory subMod ++
          [(filePath, dirOwnership,
            Module.new span (some (.owned .unloaded)) subMod.astItem
              (.owned items) (.owned attrs))] ++
          (if !((find_mods_outside_of_ast env directory subMod).any (fun x => x.1 == filePath))
           then [(filePath, dirOwnership, subMod)] else []))))) := by
  have hempty : (find_mods_outside_of_ast env directory subMod).isEmpty = false := by
    cases hmm : find_mods_outside_of_ast env directory subMod with
    | nil => exact absurd hmm hne
    | cons x xs => rfl
  constructor
  · intro hp
    simp only [find_external_module, submod_path_from_attr, hattr, Option.map_none', hdef,
      hp, hempty, Bool.false_eq_true, if_false, if_true]
  · intro attrs items span hp hpar
    simp only [find_external_module, submod_path_from_attr, hattr, Option.map_none', hdef,
      hp, hpar, hempty, Bool.false_eq_true, if_false, if_true]

def envC2 : Env :=
  { recursive := false
    containsSkip := fun _ => false
    isFileParsed := fun _ => false
    fileExists := fun pth => pth == ["feat_a.rs"]
    parseFileAsModule := fun pth _ =>
      if pth == ["feat_a.rs"] then .ok ([], [], 3)
      else if pth == ["feat.rs"] then .ok ([], [], 4)
      else .error .otherError
    defaultSubmodPath := fun _ _ _ => .ok { filePath := ["feat.rs"], dirOwnership := .owned none }
    spanToFilename := fun _ => .real ["lib.rs"]
    pathVisitorPaths := fun _ => ["feat_a.rs"]
    cfgIfMods := fun _ => [] }

def dirC2 : Directory := { path := [], ownership := .owned none }

def modC2 : Module :=
  Module.new 2 (some (.owned .unloaded)) (some (Item.mk "feat" [] 2 (.modItem .unloaded)))
    (.owned []) (.owned [])

/-- Counterexample to C2 as stated: module `feat` has the one conditional
candidate `"feat_a.rs"` and its default file `"feat.rs"` parses successfully;
the returned `MultiExternal` list contains two entries whose path is the
default path (the freshly parsed module and the declaration-site module), while
the claim asserts the default path never appears twice. -/
theorem c2_counterexample :
    (match find_external_module envC2 dirC2 modC2 with
     | .ok (some (.multiExternal l)) => l.countP (fun x => x.1 == ["feat.rs"])
     | _ => 0) = 2 := by decide

/-- Witness for the amended C2 (fresh-parse branch). -/
theorem c2_witness :
    find_external_module envC2 dirC2 modC2 =
      .ok (some (.multiExternal (find_mods_outside_of_ast envC2 dirC2 modC2 ++
        [(["feat.rs"], .owned none,
          Module.new 4 (some (.owned .unloaded)) modC2.astItem (.owned []) (.owned []))] ++
        (if !((find_mods_outside_of_ast envC2 dirC2 modC2).any (fun x => x.1 == ["feat.rs"]))
         then [(["feat.rs"], .owned none, modC2)] else [])))) :=
  (find_external_module_default_append envC2 dirC2 modC2 ["feat.rs"] (.owned none)
    rfl rfl (fun hx => List.noConfusion hx)).2 [] [] 4 rfl rfl

/-- C8: save-then-restore discipline for the directory context.  Whenever
`visit_sub_mod` returns successfully, the resolver's directory (path and
ownership) equals its value from before the call, whatever mutations the child
visit performed. -/
theorem visit_sub_mod_restores_directory (env : Env) (fuel : Nat) (subMod : Module)
    (st st' : St) (h : visit_sub_mod env fuel subMod st = (st', none)) :
    st'.directory = st.directory := by
  cases fuel with
  | zero => simp [visit_sub_mod, run] at h
  | succ f =>
    simp only [visit_sub_mod, run] at h
    split at h
    · -- peek error
      simp at h
    · -- peek ok none
      rw [Prod.mk.injEq] at h
      rw [← h.1]
    · -- peek ok some kind
      split at h
      · -- recursive
        split at h
        · rw [Prod.mk.injEq] at h
          rw [← h.1]
        · simp at h
      · -- non-recursive
        rw [Prod.mk.injEq] at h
        rw [← h.1]

def envW8 : Env :=
  { recursive := false
    containsSkip := fun _ => true
    isFileParsed := fun _ => false
    fileExists := fun _ => false
    parseFileAsModule := fun _ _ => .error .otherError
    defaultSubmodPath := fun _ _ _ => .error .otherErr
    spanToFilename := fun _ => .real ["lib.rs"]
    pathVisitorPaths := fun _ => []
    cfgIfMods := fun _ => [] }

def modW8 : Module :=
  Module.new 8 (some (.owned .unloaded)) (some (Item.mk "w8" [] 8 (.modItem .unloaded)))
    (.owned []) (.owned [])

def stW8 : St := { directory := { path := ["d"], ownership := .owned (some "r") }, fileMap := [] }

/-- Witness for C8: a successful visit leaves the directory context intact. -/
theorem c8_witness :
    (visit_sub_mod envW8 1 modW8 stW8).1.directory = stW8.directory :=
  visit_sub_mod_restores_directory envW8 1 modW8 stW8 (visit_sub_mod envW8 1 modW8 stW8).1 rfl


/-! Helper lemmas about `FileModMap` insertion (claim C4). -/

theorem find?_append_of_found {α : Type} (l₁ l₂ : List α) (p : α → Bool) (x : α)
    (h : l₁.find? p = some x) : (l₁ ++ l₂).find? p = some x := by
  induction l₁ with
  | nil => simp [List.find?] at h
  | cons a as ih =>
    by_cases hp : p a
    · rw [List.find?_cons_of_pos _ hp] at h
      rw [List.cons_append, List.find?_cons_of_pos _ hp]
      exact h
    · rw [List.find?_cons_of_neg _ hp] at h
      rw [List.cons_append, List.find?_cons_of_neg _ hp]
      exact ih h

theorem findEntry_append_of_found (fm rest : FileModMap) (k : FileName) (v₀ : Module)
    (h : findEntry fm k = some v₀) : findEntry (fm ++ rest) k = some v₀ := by
  unfold findEntry at h ⊢
  obtain ⟨kv, hkv, hv⟩ := Option.map_eq_some'.mp h
  rw [find?_append_of_found fm rest _ kv hkv]
  simpa using hv

theorem findEntry_or_insert_preserved (fm : FileModMap) (k k' : FileName) (v₀ v : Module)
    (h : findEntry fm k = some v₀) : findEntry (or_insert fm k' v) k = some v₀ := by
  unfold or_insert
  split
  · exact h
  · exact findEntry_append_of_found fm [(k', v)] k v₀ h

theorem findEntry_foldl_or_insert_preserved (mods : List (PathBuf × DirectoryOwnership × Module))
    (fm : FileModMap) (k : FileName) (v₀ : Module) (h : findEntry fm k = some v₀) :
    findEntry (mods.foldl (fun acc x => or_insert acc (.real x.1) x.2.2) fm) k = some v₀ := by
  induction mods generalizing fm with
  | nil => exact h
  | cons x xs ih => exact ih _ (findEntry_or_insert_preserved fm k _ v₀ _ h)

/-- C4 (amended): every insertion performed by `insert_sub_mod` during the
traversal goes through `or_insert`, which is a no-op for an already-known file
identity, so the traversal never overwrites an existing entry; the final root
insertion of `visit_crate`, however, uses the overwriting `insertReplace`
(`BTreeMap::insert`) and can replace an entry previously inserted under the
root file identity. -/
theorem insert_sub_mod_never_overwrites (kind : SubModKind) (fm : FileModMap)
    (k : FileName) (v₀ v : Module) (h : findEntry fm k = some v₀) :
    or_insert fm k v = fm ∧ findEntry (insert_sub_mod kind fm) k = some v₀ := by
  refine ⟨by simp [or_insert, h], ?_⟩
  cases kind with
  | external p o m => exact findEntry_or_insert_preserved fm k _ v₀ m h
  | internal i => exact h
  | multiExternal mods => exact findEntry_foldl_or_insert_preserved mods fm k v₀ h

def envC4 : Env :=
  { recursive := false
    containsSkip := fun _ => false
    isFileParsed := fun pth => pth == ["lib.rs"]
    fileExists := fun pth => pth == ["lib.rs"]
    parseFileAsModule := fun _ _ => .error .otherError
    defaultSubmodPath := fun _ _ _ => .error .otherErr
    spanToFilename := fun _ => .real ["lib.rs"]
    pathVisitorPaths := fun _ => ["lib.rs"]
    cfgIfMods := fun _ => [] }

def itemsC4 : List Item := [Item.mk "foo" [] 1 (.modItem .unloaded)]

def crateC4 : Crate := { attrs := [], items := itemsC4, span := 0 }

def stC4 : St := { directory := { path := [], ownership := .owned none }, fileMap := [] }

/-- Counterexample to C4 as stated: a module declaration carries a conditional
path naming the already-parsed root file `"lib.rs"`, so the traversal inserts
an entry for the root identity whose `Module` still has its declaring item;
`visit_crate`'s final root insertion then overwrites it with the synthetic root
module (no declaring item), so an inserted entry did not survive unchanged. -/
theorem c4_counterexample :
    ((findEntry (visit_mod_from_ast envC4 10 itemsC4 stC4).1.fileMap (.real ["lib.rs"])).map
      (fun m => m.astItem.isSome) = some true) ∧
    ((Except.toOption (visit_crate envC4 10 crateC4 (.owned none))).map
      (fun fm => (findEntry fm (.real ["lib.rs"])).map (fun m => m.astItem.isSome))
      = some (some false)) :=
  ⟨by decide, by decide⟩

def modW4a : Module :=
  Module.new 41 none (some (Item.mk "w4" [] 41 (.modItem .unloaded))) (.owned []) (.owned [])

def modW4b : Module := Module.new 42 none none (.owned []) (.owned [])

/-- Witness for the amended C4: re-inserting under a known file identity is a
no-op and preserves the existing entry. -/
theorem c4_witness :
    or_insert [(FileName.real ["a.rs"], modW4a)] (.real ["a.rs"]) modW4b
        = [(FileName.real ["a.rs"], modW4a)] ∧
    findEntry (insert_sub_mod (.external ["a.rs"] (.owned none) modW4b)
        [(FileName.real ["a.rs"], modW4a)]) (.real ["a.rs"]) = some modW4a :=
  insert_sub_mod_never_overwrites (.external ["a.rs"] (.owned none) modW4b)
    [(FileName.real ["a.rs"], modW4a)] (.real ["a.rs"]) modW4a modW4b rfl

/-! Helper lemmas for claim C3: in non-recursive mode, resolution errors are
swallowed by the item loop. -/

theorem handleVisitResult_false_no_res (r : St × Option RErr) (k : St → St × Option RErr)
    (e : ModuleResolutionError) (hk : ∀ st, (k st).2 ≠ some (.res e)) :
    (handleVisitResult false r k).2 ≠ some (.res e) := by
  rcases r with ⟨st, o⟩
  match o with
  | none => exact hk st
  | some (.res e') => simpa [handleVisitResult] using hk st
  | some .panicked => simp [handleVisitResult]
  | some .fuel => simp [handleVisitResult]

theorem run_fromAst_nonrecursive_no_res (env : Env) (h : env.recursive = false) :
    ∀ (fuel : Nat) (items : List Item) (st : St) (e : ModuleResolutionError),
      (run env fuel (.fromAst items) st).2 ≠ some (.res e) := by
  intro fuel
  induction fuel with
  | zero => intro items st e; simp [run]
  | succ f ih =>
    intro items st e
    cases items with
    | nil => simp [run]
    | cons item rest =>
      simp only [run, h]
      apply handleVisitResult_false_no_res
      intro st1
      cases hk : item.kind with
      | modItem k =>
        apply handleVisitResult_false_no_res
        intro st2
        exact ih rest st2 e
      | macCall s => exact ih rest st1 e
      | otherItem => exact ih rest st1 e

/-- C3 (amended): in non-recursive mode a classification error for one
submodule never aborts the traversal and is not returned: `visit_crate` cannot
produce a `ModuleResolutionError` (siblings both before and after the failing
declaration are still processed, and entries inserted for them remain in the
map, as the accompanying counterexample shows on a concrete crate). -/
theorem visit_crate_nonrecursive_no_resolution_error (env : Env) (fuel : Nat) (krate : Crate)
    (ow : DirectoryOwnership) (e : ModuleResolutionError) (h : env.recursive = false) :
    visit_crate env fuel krate ow ≠ .error (.res e) := by
  unfold visit_crate
  dsimp only
  intro hc
  rcases hrun : run env fuel (.fromAst krate.items)
      { directory :=
          { path :=
              match env.spanToFilename krate.span with
              | .real p => p.dropLast
              | .virtualFile _ => []
            ownership := ow }
        fileMap := [] } with ⟨st, o⟩
  rw [hrun] at hc
  cases o with
  | some e' =>
    have hne := run_fromAst_nonrecursive_no_res env h fuel krate.items
      { directory :=
          { path :=
              match env.spanToFilename krate.span with
              | .real p => p.dropLast
              | .virtualFile _ => []
            ownership := ow }
        fileMap := [] } e
    rw [hrun] at hne
    simp at hc hne
    exact hne hc
  | none => simp at hc

def envC3 : Env :=
  { recursive := false
    containsSkip := fun _ => false
    isFileParsed := fun _ => false
    fileExists := fun _ => false
    parseFileAsModule := fun p _ => if p = ["bar.rs"] then .ok ([], [], 5) else .error .parseError
    defaultSubmodPath := fun ident _ _ =>
      if ident = "bar" then .ok { filePath := ["bar.rs"], dirOwnership := .owned none }
      else .error .otherErr
    spanToFilename := fun _ => .real ["lib.rs"]
    pathVisitorPaths := fun _ => []
    cfgIfMods := fun _ => [] }

def crateC3 : Crate :=
  { attrs := []
    items := [Item.mk "foo" [] 1 (.modItem .unloaded), Item.mk "bar" [] 2 (.modItem .unloaded)]
    span := 0 }

/-- Counterexample to C3 as stated: in non-recursive mode, module `foo` fails
classification (`NotFound`, third conjunct) yet `visit_crate` returns `Ok`
rather than stopping with that error, and the sibling `bar` (processed after
the failure) as well as the root file are in the returned map. -/
theorem c3_counterexample :
    (visit_crate envC3 10 crateC3 (.owned none)).isOk = true ∧
    (Except.toOption (visit_crate envC3 10 crateC3 (.owned none))).map
      (fun fm => ((findEntry fm (.real ["bar.rs"])).isSome,
        (findEntry fm (.real ["lib.rs"])).isSome)) = some (true, true) ∧
    find_external_module envC3 { path := [], ownership := .owned none }
      (Module.new 1 (some (.borrowed .unloaded)) (some (Item.mk "foo" [] 1 (.modItem .unloaded)))
        (.owned []) (.borrowed []))
      = .error (.res { module := "foo", kind := .notFound [] }) :=
  ⟨by decide, by decide, rfl⟩

/-- Witness for the amended C3. -/
theorem c3_witness :
    envC3.recursive = false ∧
    visit_crate envC3 10 crateC3 (.owned none) ≠
      .error (.res { module := "foo", kind := .notFound [] }) :=
  ⟨rfl, visit_crate_nonrecursive_no_resolution_error envC3 10 crateC3 (.owned none)
    { module := "foo", kind := .notFound [] } rfl⟩


/-! Helper lemmas for claim C10: no reachable call hits the `unwrap` of an
absent declaring item. -/

theorem find_external_module_ne_panicked (env : Env) (d : Directory) (m : Module) :
    find_external_module env d m ≠ .error RErr.panicked := by
  unfold find_external_module
  dsimp only
  (repeat' split) <;> simp

theorem peek_sub_mod_ne_panicked (env : Env) (d : Directory) (m : Module)
    (h : m.astItem.isSome = true) : peek_sub_mod env d m ≠ .error RErr.panicked := by
  unfold peek_sub_mod
  split
  · simp
  · split
    · exact find_external_module_ne_panicked env d m
    · cases hm : m.astItem with
      | none => rw [hm] at h; simp at h
      | some item => simp

theorem andThenSt_ne_panicked (r : St × Option RErr) (k : St → St × Option RErr)
    (hr : r.2 ≠ some RErr.panicked) (hk : ∀ st, (k st).2 ≠ some RErr.panicked) :
    (andThenSt r k).2 ≠ some RErr.panicked := by
  rcases r with ⟨st, o⟩
  cases o with
  | none => exact hk st
  | some e => simpa [andThenSt] using hr

theorem handleVisitResult_ne_panicked (b : Bool) (r : St × Option RErr)
    (k : St → St × Option RErr)
    (hr : r.2 ≠ some RErr.panicked) (hk : ∀ st, (k st).2 ≠ some RErr.panicked) :
    (handleVisitResult b r k).2 ≠ some RErr.panicked := by
  rcases r with ⟨st, o⟩
  match o with
  | none => exact hk st
  | some (.res e) =>
    by_cases hb : b
    · simp [handleVisitResult, hb]
    · simpa [handleVisitResult, hb] using hk st
  | some .panicked => exact absurd rfl hr
  | some .fuel => simp [handleVisitResult]

def Call.noAbsentItem : Call → Prop
  | .subMod m => m.astItem.isSome = true
  | _ => True

theorem run_ne_panicked (env : Env) :
    ∀ (fuel : Nat) (c : Call) (st : St), c.noAbsentItem →
      (run env fuel c st).2 ≠ some RErr.panicked := by
  intro fuel
  induction fuel with
  | zero => intro c st _; simp [run]
  | succ f ih =>
    intro c st hc
    cases c with
    | fromAst items =>
      cases items with
      | nil => simp [run]
      | cons item rest =>
        simp only [run]
        apply handleVisitResult_ne_panicked
        · split
          · exact ih (.cfgIf item) st trivial
          · simp
        · intro st1
          cases hk : item.kind with
          | modItem k =>
            apply handleVisitResult_ne_panicked
            · exact ih (.subMod _) st1 (by simp [Call.noAbsentItem, Module.new])
            · intro st2
              exact ih (.fromAst rest) st2 trivial
          | macCall s => exact ih (.fromAst rest) st1 trivial
          | otherItem => exact ih (.fromAst rest) st1 trivial
    | outsideAst items =>
      cases items with
      | nil => simp [run]
      | cons item rest =>
        simp only [run]
        split
        · apply andThenSt_ne_panicked
          · exact ih (.cfgIf item) st trivial
          · intro st1
            exact ih (.outsideAst rest) st1 trivial
        · cases hk : item.kind with
          | modItem k =>
            apply andThenSt_ne_panicked
            · exact ih (.subMod _) st (by simp [Call.noAbsentItem, Module.new])
            · intro st1
              exact ih (.outsideAst rest) st1 trivial
          | macCall s => exact ih (.outsideAst rest) st trivial
          | otherItem => exact ih (.outsideAst rest) st trivial
    | cfgIf item =>
      simp only [run]
      exact ih (.cfgIfMods (env.cfgIfMods item)) st trivial
    | cfgIfMods items =>
      cases items with
      | nil => simp [run]
      | cons item rest =>
        simp only [run]
        cases hk : item.kind with
        | modItem k =>
          apply andThenSt_ne_panicked
          · exact ih (.subMod _) st (by simp [Call.noAbsentItem, Module.new])
          · intro st1
            exact ih (.cfgIfMods rest) st1 trivial
        | macCall s => exact ih (.cfgIfMods rest) st trivial
        | otherItem => exact ih (.cfgIfMods rest) st trivial
    | subMod m =>
      have hm : m.astItem.isSome = true := hc
      simp only [run]
      cases hp : peek_sub_mod env st.directory m with
      | error e =>
        have hpk := peek_sub_mod_ne_panicked env st.directory m hm
        rw [hp] at hpk
        intro hcontra
        simp at hcontra
        subst hcontra
        exact hpk rfl
      | ok o =>
        cases o with
        | none => simp
        | some kind =>
          by_cases hr : env.recursive
          · simp only [hr, if_true]
            rcases hq : run env f (.subModInner m kind)
                { st with fileMap := insert_sub_mod kind st.fileMap } with ⟨st2, o2⟩
            cases o2 with
            | none => simp
            | some e2 =>
              have hih := ih (.subModInner m kind)
                { st with fileMap := insert_sub_mod kind st.fileMap } trivial
              rw [hq] at hih
              simpa using hih
          · simp only [hr, if_false]
            simp
    | subModInner m kind =>
      simp only [run]
      cases kind with
      | external p o nm => exact ih (.afterDirUpdate nm _) st trivial
      | internal item => exact ih (.afterDirUpdate m none) _ trivial
      | multiExternal mods =>
        cases mods with
        | nil => simp
        | cons x rest =>
          rcases x with ⟨p, o, nm⟩
          apply andThenSt_ne_panicked
          · exact ih (.afterDirUpdate nm _) st trivial
          · intro st1
            exact ih (.subModInner m (.multiExternal rest)) st1 trivial
    | afterDirUpdate m dir =>
      simp only [run]
      rcases hmk : m.astModKind with _ | ck
      · simp
      · rcases ck with mk | mk
        · rcases mk with ⟨innerItems, inline⟩ | _
          · cases inline with
            | false => exact ih (.fromAst innerItems) _ trivial
            | true => simp
          · simp
        · rcases hit : m.items with its | its
          · simp
          · exact ih (.outsideAst its) _ trivial

/-- C10: every `Module` passed to `visit_sub_mod` by the traversal is built
with a present declaring item, so the `unwrap` of `ast_item` in
`peek_sub_mod`'s internal-module branch is never reached from `visit_crate`:
for every environment, fuel, crate and initial ownership, the traversal never
produces the `panicked` outcome (only the synthetic root module, which is
inserted directly and never classified, lacks a declaring item). -/
theorem visit_crate_never_panics (env : Env) (fuel : Nat) (krate : Crate)
    (ow : DirectoryOwnership) : visit_crate env fuel krate ow ≠ .error RErr.panicked := by
  unfold visit_crate
  dsimp only
  intro hc
  rcases hrun : run env fuel (.fromAst krate.items)
      { directory :=
          { path :=
              match env.spanToFilename krate.span with
              | .real p => p.dropLast
              | .virtualFile _ => []
            ownership := ow }
        fileMap := [] } with ⟨st, o⟩
  rw [hrun] at hc
  cases o with
  | some e =>
    have hne := run_ne_panicked env fuel (.fromAst krate.items)
      { directory :=
          { path :=
              match env.spanToFilename krate.span with
              | .real p => p.dropLast
              | .virtualFile _ => []
            ownership := ow }
        fileMap := [] } trivial
    rw [hrun] at hne
    simp at hc hne
    subst hc
    exact hne rfl
  | none => simp at hc


end RustfmtModules
